import Mathlib

/-!
Shallow embedding of the Giftify giveaway bot core:
the campaign entry / eligibility / winner-selection subsystem
(src/models/giveaways.py, class Giveaway) and the durable timer
dispatch engine (src/cogs/timer_manager.py, src/models/timers.py).

Member ids, role ids and channel ids are natural numbers.
Timestamps are integers (seconds).  Asynchronous database calls are
modelled as pure state passing; the external Amari level / weekly
experience services are parameters of type Nat to Nat.
-/

namespace Giftify

/-- A guild, modelled as the list of role ids that exist in it. -/
structure Guild where
  roles : List Nat
  deriving DecidableEq, Repr

/-- A guild member: the stable member id and the role ids the member holds. -/
structure Member where
  id : Nat
  roles : List Nat
  deriving DecidableEq, Repr

/-- discord.Guild.get_role: resolve a role id, none when no such role exists. -/
def Guild.get_role (g : Guild) (roleId : Nat) : Option Nat :=
  if roleId ∈ g.roles then some roleId else none

/-- discord.Member.get_role: the role when the member holds it, else none. -/
def Member.get_role (m : Member) (roleId : Nat) : Option Nat :=
  if roleId ∈ m.roles then some roleId else none

/-- The giveaway row (src/models/giveaways.py, Giveaway.__init__), with the
fields the core logic reads.  multiplier_roles and messages are association
lists standing for the stored dictionaries. -/
structure Giveaway where
  guild_id : Nat
  channel_id : Nat
  message_id : Nat
  host_id : Nat
  winner_count : Nat
  winners : List Nat
  participants : List Nat
  ended : Bool
  ends : Int
  required_roles : List Nat
  blacklisted_roles : List Nat
  bypass_roles : List Nat
  multiplier_roles : List (Nat × Nat)
  messages : List (Nat × Nat)
  messages_required : Option Nat
  amari : Option Nat
  weekly_amari : Option Nat
  deriving DecidableEq, Repr

/-- The GiveawayError raised by the entry/eligibility paths.  The Python class
carries a message string; each constructor records which branch raised and the
values interpolated into that message. -/
inductive GiveawayError where
  | missingRequiredRoles (roles : List Nat)
  | blacklistedRolesHeld (roles : List Nat)
  | amariLevelTooLow (needed : Nat)
  | weeklyAmariTooLow (needed : Nat)
  | notEnoughMessages (needed : Nat)
  | alreadyJoined
  deriving DecidableEq, Repr

/-- Python truthiness of an optional integer: Some n is truthy iff n is not 0. -/
def optTruthy : Option Nat → Bool
  | none => false
  | some n => n != 0

/-- messages.get(member.id, 0): dictionary lookup with default 0. -/
def lookup_messages (messages : List (Nat × Nat)) (memberId : Nat) : Nat :=
  match messages.lookup memberId with
  | some n => n
  | none => 0

/-- The list built by the first comprehension of Giveaway.check_requirements:
required role ids that resolve in the guild and that the member lacks. -/
def Giveaway.missing_required_roles (gw : Giveaway) (g : Guild) (m : Member) : List Nat :=
  gw.required_roles.filter fun roleId =>
    (g.get_role roleId).isSome && !(decide (roleId ∈ m.roles))

/-- The list built by the second comprehension of Giveaway.check_requirements:
blacklisted role ids that resolve in the guild and that the member holds. -/
def Giveaway.held_blacklisted_roles (gw : Giveaway) (g : Guild) (m : Member) : List Nat :=
  gw.blacklisted_roles.filter fun roleId =>
    (g.get_role roleId).isSome && decide (roleId ∈ m.roles)

/-- Giveaway.check_requirements (src/models/giveaways.py lines 421-458).
The checks run in source order and the first failing block raises. -/
def Giveaway.check_requirements (gw : Giveaway) (g : Guild)
    (fetchLevel fetchWeekly : Nat → Nat) (m : Member) : Except GiveawayError Unit :=
  let missing := gw.missing_required_roles g m
  if missing ≠ [] then
    .error (.missingRequiredRoles missing)
  else
    let held := gw.held_blacklisted_roles g m
    if held ≠ [] then
      .error (.blacklistedRolesHeld held)
    else if optTruthy gw.amari && decide (fetchLevel m.id < gw.amari.getD 0) then
      .error (.amariLevelTooLow (gw.amari.getD 0 - fetchLevel m.id))
    else if optTruthy gw.weekly_amari && decide (fetchWeekly m.id < gw.weekly_amari.getD 0) then
      .error (.weeklyAmariTooLow (gw.weekly_amari.getD 0 - fetchWeekly m.id))
    else if optTruthy gw.messages_required && decide (0 < gw.messages_required.getD 0) &&
        decide (lookup_messages gw.messages m.id < gw.messages_required.getD 0) then
      .error (.notEnoughMessages (gw.messages_required.getD 0 - lookup_messages gw.messages m.id))
    else
      .ok ()

/-- Giveaway.can_bypass: true iff some bypass role id resolves in the guild to
a role the member holds (get_role returning None makes the membership test
False, exactly as None in member.roles is False in Python). -/
def Giveaway.can_bypass (gw : Giveaway) (g : Guild) (m : Member) : Bool :=
  gw.bypass_roles.any fun roleId =>
    match g.get_role roleId with
    | some r => decide (r ∈ m.roles)
    | none => false

/-- Giveaway.get_multiplier_entries (lines 463-469): sum the configured
entries of the multiplier roles the member holds, then apply the Python
idiom entries or 1. -/
def Giveaway.get_multiplier_entries (gw : Giveaway) (m : Member) : Nat :=
  let entries := gw.multiplier_roles.foldl
    (fun acc p => if (m.get_role p.1).isSome then acc + p.2 else acc) 0
  if entries = 0 then 1 else entries

/-- Specification-side reading of the multiplier configuration: the sum of
the configured entries over the multiplier roles the member holds. -/
def Giveaway.multiplier_sum (gw : Giveaway) (m : Member) : Nat :=
  ((gw.multiplier_roles.filter fun p => (m.get_role p.1).isSome).map Prod.snd).sum

/-- The weight the code gives a joining member, phrased through the
multiplier sum: the sum itself, with 1 substituted when the sum is 0. -/
def Giveaway.weight_of (gw : Giveaway) (m : Member) : Nat :=
  if gw.multiplier_sum m = 0 then 1 else gw.multiplier_sum m

/-- Giveaway.join (lines 471-493): eligibility with bypass fallback, the
duplicate-entry guard, then append weight copies of the member id and return
the persisted state together with the distinct participant count. -/
def Giveaway.join (gw : Giveaway) (g : Guild) (fetchLevel fetchWeekly : Nat → Nat)
    (m : Member) : Except GiveawayError (Giveaway × Nat) :=
  let elig : Except GiveawayError Unit :=
    match gw.check_requirements g fetchLevel fetchWeekly m with
    | .error e => if gw.can_bypass g m then .ok () else .error e
    | .ok _ => .ok ()
  match elig with
  | .error e => .error e
  | .ok _ =>
    if m.id ∈ gw.participants then
      .error .alreadyJoined
    else
      let number_of_entries := gw.get_multiplier_entries m
      let newParticipants := gw.participants ++ List.replicate number_of_entries m.id
      .ok ({ gw with participants := newParticipants }, newParticipants.dedup.length)

/-- The distinct participant count a successful join reports, none when the
join raised. -/
def Giveaway.join_distinct_count (gw : Giveaway) (g : Guild)
    (fetchLevel fetchWeekly : Nat → Nat) (m : Member) : Option Nat :=
  match gw.join g fetchLevel fetchWeekly m with
  | .ok r => some r.2
  | .error _ => none

/-- The number of copies of the member id present after a successful join,
none when the join raised. -/
def Giveaway.join_copies (gw : Giveaway) (g : Guild)
    (fetchLevel fetchWeekly : Nat → Nat) (m : Member) : Option Nat :=
  match gw.join g fetchLevel fetchWeekly m with
  | .ok r => some (r.1.participants.count m.id)
  | .error _ => none

/-- The pool update inside Giveaway.pick_winners (line 661):
participants.remove(member_id) removes the first occurrence of the drawn
value, exactly List.erase. -/
def remove_drawn (pool : List Nat) (memberId : Nat) : List Nat :=
  pool.erase memberId

/-- Membership test member in winners of Giveaway.pick_winners (line 665):
discord members compare equal exactly when their ids are equal. -/
def winner_mem (winners : List Member) (m : Member) : Bool :=
  winners.any fun w => w.id == m.id

/-- The eligibility gate applied to a drawn member (lines 666-670): the
check_requirements call with the can_bypass fallback. -/
def Giveaway.elig_pass (gw : Giveaway) (g : Guild)
    (fetchLevel fetchWeekly : Nat → Nat) (m : Member) : Bool :=
  match gw.check_requirements g fetchLevel fetchWeekly m with
  | .ok _ => true
  | .error _ => gw.can_bypass g m

/-- The draw random.choice(participants) of Giveaway.pick_winners (line
660) on a non-empty pool: the stream value rs k taken modulo the pool size
indexes the pool. -/
def draw_id (rs : Nat → Nat) (k : Nat) (p : Nat) (ps : List Nat) : Nat :=
  (p :: ps).get ⟨rs k % (p :: ps).length, Nat.mod_lt _ (Nat.succ_pos _)⟩

/-- The loop of Giveaway.pick_winners (lines 659-673).  random.choice is
modelled by a stream rs of naturals taken modulo the pool size; k indexes the
stream.  resolve models bot.get_or_fetch_member.  Every iteration removes one
element from the pool, so the initial pool length serves as structural fuel;
pick_winners below always supplies exactly that much. -/
def Giveaway.pick_winners_aux (gw : Giveaway) (g : Guild) (resolve : Nat → Option Member)
    (fetchLevel fetchWeekly : Nat → Nat) (rs : Nat → Nat) :
    Nat → Nat → Nat → List Nat → List Member → List Member
  | 0, _, _, _, winners => winners
  | _ + 1, _, 0, _, winners => winners
  | _ + 1, _, _ + 1, [], winners => winners
  | fuel + 1, k, c + 1, p :: ps, winners =>
    match resolve (draw_id rs k p ps) with
    | none =>
      gw.pick_winners_aux g resolve fetchLevel fetchWeekly rs fuel (k + 1) (c + 1)
        (remove_drawn (p :: ps) (draw_id rs k p ps)) winners
    | some member =>
      if winner_mem winners member then
        gw.pick_winners_aux g resolve fetchLevel fetchWeekly rs fuel (k + 1) (c + 1)
          (remove_drawn (p :: ps) (draw_id rs k p ps)) winners
      else if gw.elig_pass g fetchLevel fetchWeekly member then
        gw.pick_winners_aux g resolve fetchLevel fetchWeekly rs fuel (k + 1) c
          (remove_drawn (p :: ps) (draw_id rs k p ps)) (winners ++ [member])
      else
        gw.pick_winners_aux g resolve fetchLevel fetchWeekly rs fuel (k + 1) (c + 1)
          (remove_drawn (p :: ps) (draw_id rs k p ps)) winners

/-- Giveaway.pick_winners (lines 654-675): run the loop on a copy of the
participant list. -/
def Giveaway.pick_winners (gw : Giveaway) (g : Guild) (resolve : Nat → Option Member)
    (fetchLevel fetchWeekly : Nat → Nat) (rs : Nat → Nat) (count : Nat) : List Member :=
  gw.pick_winners_aux g resolve fetchLevel fetchWeekly rs
    gw.participants.length 0 count gw.participants []

/-- Whether a drawn id would be kept by a draw when not yet among the
winners: it resolves to a member that passes the eligibility gate. -/
def Giveaway.draw_ok (gw : Giveaway) (g : Guild) (resolve : Nat → Option Member)
    (fetchLevel fetchWeekly : Nat → Nat) (memberId : Nat) : Bool :=
  match resolve memberId with
  | none => false
  | some m => gw.elig_pass g fetchLevel fetchWeekly m

/-- Whether some already selected winner has the given id. -/
def winner_has (winners : List Member) (memberId : Nat) : Bool :=
  winners.any fun w => w.id == memberId

/-- The distinct ids still available to become winners: ids in the pool that
would be kept when drawn and do not belong to a winner already selected. -/
def Giveaway.available (gw : Giveaway) (g : Guild) (resolve : Nat → Option Member)
    (fetchLevel fetchWeekly : Nat → Nat) (pool : List Nat) (winners : List Member) :
    Finset Nat :=
  pool.toFinset.filter fun i =>
    gw.draw_ok g resolve fetchLevel fetchWeekly i = true ∧ winner_has winners i = false

/-- Giveaway._mark_ended (lines 510-518): persist ended = true together with
the current winners list. -/
def Giveaway.mark_ended (gw : Giveaway) : Giveaway :=
  { gw with ended := true }

/-- Giveaway.end (lines 520-529, the bookkeeping part): when the guild is
gone only mark the row ended; otherwise pick winners over the current
participants, overwrite the winners list and persist both.  Notification and
message edits are presentation and ignored here. -/
def Giveaway.end_giveaway (gw : Giveaway) (guild : Option Guild)
    (resolve : Nat → Option Member) (fetchLevel fetchWeekly : Nat → Nat)
    (rs : Nat → Nat) : Giveaway :=
  match guild with
  | none => gw.mark_ended
  | some g =>
    let winners := gw.pick_winners g resolve fetchLevel fetchWeekly rs gw.winner_count
    Giveaway.mark_ended { gw with winners := winners.map Member.id }

/-- A timer row (src/models/timers.py). -/
structure Timer where
  message_id : Nat
  channel_id : Nat
  guild_id : Nat
  author_id : Nat
  event : String
  title : String
  expires : Int
  deriving DecidableEq, Repr

/-- The key match of the SQL DELETE in Timer.end: guild, channel and message
all equal. -/
def timer_key_eq (a b : Timer) : Bool :=
  a.guild_id == b.guild_id && a.channel_id == b.channel_id && a.message_id == b.message_id

/-- Timer.end / TimerManager.delete_timer: DELETE FROM timers WHERE guild,
channel and message match; every matching row is removed. -/
def delete_timer_rows (store : List Timer) (t : Timer) : List Timer :=
  store.filter fun r => !(timer_key_eq r t)

/-- The earliest timer of a list by expiry, preferring earlier rows on ties
(ORDER BY expires LIMIT 1; no secondary ordering is guaranteed). -/
def earliest_timer : List Timer → Option Timer
  | [] => none
  | t :: ts =>
    match earliest_timer ts with
    | none => some t
    | some b => if t.expires ≤ b.expires then some t else some b

/-- TimerManager.get_active_timer: the earliest stored timer expiring before
now plus the horizon of the given number of days. -/
def get_active_timer (store : List Timer) (now : Int) (days : Int) : Option Timer :=
  earliest_timer (store.filter fun t => t.expires < now + days * 86400)

/-- The dispatcher state: the durable store, the timer the dispatch task
currently holds (None while blocked waiting for data), the dispatched events
in order, and the timers scheduled purely in memory by the short-timer path. -/
structure TimerState where
  store : List Timer
  current : Option Timer
  dispatched : List Timer
  shortTimers : List Timer
  deriving DecidableEq, Repr

/-- A restarted dispatch_timers task runs wait_for_active_timers, which
queries the store with the 40 day horizon and records the result as the
current timer (None while it blocks on the wake event). -/
def restart_dispatch (s : TimerState) (now : Int) : TimerState :=
  { s with current := get_active_timer s.store now 40 }

/-- TimerManager.call_timer (src/cogs/timer_manager.py lines 53-65): delete
the timer from the store, dispatch its event, and on a manual call whose
timer matches the currently held one by message id, cancel the task and
restart the loop. -/
def call_timer (s : TimerState) (now : Int) (t : Timer) (manually : Bool) : TimerState :=
  let s1 : TimerState :=
    { s with store := delete_timer_rows s.store t, dispatched := s.dispatched ++ [t] }
  if manually then
    match s1.current with
    | some c => if c.message_id == t.message_id then restart_dispatch s1 now else s1
    | none => s1
  else s1

/-- One wake of the dispatch loop: the task sleeping on the current timer
reaches its expiry and calls call_timer on it (not manually).  With no
current timer the task stays blocked. -/
def dispatcher_wake (s : TimerState) (now : Int) : TimerState :=
  match s.current with
  | none => s
  | some t => call_timer s now t false

/-- The outcome of TimerManager.create_timer, alongside the created timer. -/
structure CreateTimerResult where
  state : TimerState
  timer : Timer
  short_path : Bool
  restarted : Bool
  deriving DecidableEq, Repr

/-- TimerManager.create_timer (lines 67-111): a timer due within 60 seconds
is scheduled as an in-memory sleep and never touches the store; otherwise the
row is inserted, the wake event is set (modelled as a requery when the task
was blocked), and when the new expiry precedes that of the currently held
timer the task is cancelled and the loop restarted with a full requery. -/
def create_timer (s : TimerState) (now : Int) (t : Timer) : CreateTimerResult :=
  let delta := t.expires - now
  if delta ≤ 60 then
    { state := { s with shortTimers := s.shortTimers ++ [t] },
      timer := t, short_path := true, restarted := false }
  else
    let s1 : TimerState := { s with store := s.store ++ [t] }
    match s1.current with
    | some c =>
      if t.expires < c.expires then
        { state := restart_dispatch s1 now, timer := t, short_path := false, restarted := true }
      else
        { state := s1, timer := t, short_path := false, restarted := false }
    | none =>
      { state := restart_dispatch s1 now, timer := t, short_path := false, restarted := false }

/-- The actions the except clauses at the boundary of
TimerManager.dispatch_timers (lines 158-168) perform, in order. -/
inductive LoopAction where
  | reraise
  | restartTask
  | logError
  | reportTelemetry
  deriving DecidableEq, Repr

/-- The exception classes distinguished by those except clauses. -/
inductive LoopError where
  | cancelled
  | osError
  | connectionClosed
  | postgresConnectionError
  | unexpected (name : String)
  deriving DecidableEq, Repr

/-- The boundary handler of dispatch_timers: CancelledError is re-raised;
the connectivity classes cancel and recreate the task; any other exception
cancels and recreates the task, then logs and reports to Sentry. -/
def handle_loop_error : LoopError → List LoopAction
  | .cancelled => [.reraise]
  | .osError => [.restartTask]
  | .connectionClosed => [.restartTask]
  | .postgresConnectionError => [.restartTask]
  | .unexpected _ => [.restartTask, .logError, .reportTelemetry]

/-! Concrete instances used by the counterexamples and witnesses below. -/

/-- A giveaway with no requirements, no participants and one winner slot. -/
def base_giveaway : Giveaway where
  guild_id := 1
  channel_id := 2
  message_id := 3
  host_id := 4
  winner_count := 1
  winners := []
  participants := []
  ended := false
  ends := 0
  required_roles := []
  blacklisted_roles := []
  bypass_roles := []
  multiplier_roles := []
  messages := []
  messages_required := none
  amari := none
  weekly_amari := none

/-- External metric services returning 0 for every member. -/
def fetch_zero : Nat → Nat := fun _ => 0

/-- A degenerate random stream always drawing index 0. -/
def rs_zero : Nat → Nat := fun _ => 0

/-- A member cache resolving every id to a member with no roles. -/
def resolve_id : Nat → Option Member := fun i => some ⟨i, []⟩

/-- Giveaway with two multiplier roles configured at 2 and 3 entries. -/
def gwC1 : Giveaway := { base_giveaway with multiplier_roles := [(10, 2), (11, 3)] }

/-- Guild holding the two multiplier roles. -/
def gC1 : Guild := ⟨[10, 11]⟩

/-- Member holding both multiplier roles. -/
def memC1 : Member := ⟨1, [10, 11]⟩

/-- Giveaway with five distinct participants, each with a single entry. -/
def gwC3 : Giveaway := { base_giveaway with participants := [1, 2, 3, 4, 5] }

/-- Guild with no roles. -/
def gEmpty : Guild := ⟨[]⟩

/-- Giveaway requiring role 1 and blacklisting role 2. -/
def gwC4 : Giveaway := { base_giveaway with required_roles := [1], blacklisted_roles := [2] }

/-- Guild holding roles 1 and 2. -/
def gC4 : Guild := ⟨[1, 2]⟩

/-- Member lacking required role 1 while holding blacklisted role 2. -/
def memC4 : Member := ⟨5, [2]⟩

/-- An already ended giveaway whose persisted winner is member 1 while the
participant pool now holds only member 2. -/
def gwC5 : Giveaway :=
  { base_giveaway with ended := true, winners := [1], participants := [2] }

/-- A stored timer the dispatcher is sleeping on. -/
def tC6 : Timer := ⟨3, 2, 1, 4, "giveaway", "Giveaway", 100⟩

/-- Dispatcher state sleeping on tC6 with it stored and nothing dispatched. -/
def sC6 : TimerState := ⟨[tC6], some tC6, [], []⟩

/-- A timer due at 100 seconds that the dispatcher is sleeping on. -/
def t1C8 : Timer := ⟨11, 1, 1, 4, "giveaway", "Giveaway", 100⟩

/-- A newly created timer due at 10 seconds, earlier than t1C8. -/
def t2C8 : Timer := ⟨12, 1, 1, 4, "giveaway", "Giveaway", 10⟩

/-- Dispatcher state sleeping on t1C8. -/
def sC8 : TimerState := ⟨[t1C8], some t1C8, [], []⟩

/-- A timer due at 1000 seconds that the dispatcher is sleeping on. -/
def t3C8 : Timer := ⟨13, 1, 1, 4, "giveaway", "Giveaway", 1000⟩

/-- A newly created timer due at 100 seconds, past the short-timer window
and earlier than t3C8. -/
def t4C8 : Timer := ⟨14, 1, 1, 4, "giveaway", "Giveaway", 100⟩

/-- Dispatcher state sleeping on t3C8. -/
def sC8w : TimerState := ⟨[t3C8], some t3C8, [], []⟩

/-- Giveaway requiring role 1 with bypass role 2 (the §8 example). -/
def gwC9 : Giveaway := { base_giveaway with required_roles := [1], bypass_roles := [2] }

/-- Guild holding roles 1 and 2. -/
def gC9 : Guild := ⟨[1, 2]⟩

/-- Member holding only the bypass role 2. -/
def memC9 : Member := ⟨7, [2]⟩

/-- Member with no roles at all. -/
def memC10 : Member := ⟨1, []⟩

/-- Whether a GiveawayError message mentions blacklisted roles. -/
def error_mentions_blacklist : GiveawayError → Bool
  | .blacklistedRolesHeld _ => true
  | _ => false

/-- Giveaway blacklisting role 2 with no required roles. -/
def gwC4b : Giveaway := { base_giveaway with blacklisted_roles := [2] }

/-- Member holding the blacklisted role 2. -/
def memC4b : Member := ⟨6, [2]⟩

/-! General lemmas about the embedded operations. -/

theorem foldl_entries_eq_sum (c : Nat × Nat → Bool) (l : List (Nat × Nat)) :
    ∀ a : Nat, l.foldl (fun acc p => if c p then acc + p.2 else acc) a
      = a + ((l.filter c).map Prod.snd).sum := by
  induction l with
  | nil => intro a; simp
  | cons hd tl ih =>
    intro a
    by_cases h : c hd
    · simp only [List.foldl_cons, h, if_true, List.filter_cons_of_pos h, List.map_cons,
        List.sum_cons]
      rw [ih]
      omega
    · simp only [List.foldl_cons, h, if_false, List.filter_cons_of_neg h]
      rw [ih]
      simp

theorem get_multiplier_entries_eq (gw : Giveaway) (m : Member) :
    gw.get_multiplier_entries m = gw.weight_of m := by
  unfold Giveaway.get_multiplier_entries Giveaway.weight_of Giveaway.multiplier_sum
  rw [foldl_entries_eq_sum]
  simp

theorem earliest_timer_mem : ∀ (l : List Timer) (t : Timer), earliest_timer l = some t → t ∈ l := by
  intro l
  induction l with
  | nil => intro t h; cases h
  | cons a as ih =>
    intro t h
    cases he : earliest_timer as with
    | none =>
      simp only [earliest_timer, he] at h
      cases h
      exact List.mem_cons_self _ _
    | some b =>
      simp only [earliest_timer, he] at h
      by_cases hab : a.expires ≤ b.expires
      · rw [if_pos hab] at h
        cases h
        exact List.mem_cons_self _ _
      · rw [if_neg hab] at h
        cases h
        exact List.mem_cons_of_mem _ (ih _ he)

theorem get_active_timer_mem (store : List Timer) (now days : Int) (t : Timer)
    (h : get_active_timer store now days = some t) : t ∈ store := by
  unfold get_active_timer at h
  exact (List.mem_filter.mp (earliest_timer_mem _ _ h)).1

theorem timer_key_eq_self (t : Timer) : timer_key_eq t t = true := by
  simp [timer_key_eq]

theorem delete_timer_rows_all (store : List Timer) (t : Timer) :
    ((delete_timer_rows store t).all fun r => !(timer_key_eq r t)) = true := by
  simp only [delete_timer_rows, List.all_eq_true]
  intro r hr
  exact (List.mem_filter.mp hr).2

theorem call_timer_dispatched (s : TimerState) (now : Int) (t : Timer) (b : Bool) :
    (call_timer s now t b).dispatched = s.dispatched ++ [t] := by
  unfold call_timer restart_dispatch
  cases b with
  | false => rfl
  | true =>
    cases hc : s.current with
    | none => simp [hc]
    | some c =>
      simp [hc]
      split <;> rfl

theorem call_timer_store (s : TimerState) (now : Int) (t : Timer) (b : Bool) :
    (call_timer s now t b).store = delete_timer_rows s.store t := by
  unfold call_timer restart_dispatch
  cases b with
  | false => rfl
  | true =>
    cases hc : s.current with
    | none => simp [hc]
    | some c =>
      simp [hc]
      split <;> rfl

/-! Claim theorems. -/

/-- C1 counterexample: a member holding multiplier roles configured at 2 and
3 entries joins with 5 copies of the member id, not the 1 + (2 + 3) = 6 the
claim predicts: get_multiplier_entries returns the bare sum (with 1 only as
the fallback for an empty sum), not 1 plus the sum. -/
theorem join_copies_not_one_plus_sum :
    Giveaway.join_copies gwC1 gC1 fetch_zero fetch_zero memC1 = some 5 ∧
    gwC1.multiplier_roles = [(10, 2), (11, 3)] ∧
    Giveaway.join_copies gwC1 gC1 fetch_zero fetch_zero memC1 ≠ some (1 + (2 + 3)) := by
  exact ⟨by decide, rfl, by decide⟩

/-- C1 (amended): a member passing the eligibility gate (directly or via
bypass) who is not yet a participant joins with exactly w copies of the
member id appended, where w is the sum of the configured entries over the
multiplier roles the member holds, with 1 substituted when that sum is 0;
the full list is persisted and the distinct id count returned. -/
theorem join_appends_weight_copies (gw : Giveaway) (g : Guild) (fl fw : Nat → Nat)
    (m : Member) (helig : gw.elig_pass g fl fw m = true) (hnew : m.id ∉ gw.participants) :
    gw.join g fl fw m =
      .ok ({ gw with participants := gw.participants ++ List.replicate (gw.weight_of m) m.id },
           (gw.participants ++ List.replicate (gw.weight_of m) m.id).dedup.length) ∧
    gw.join_copies g fl fw m = some (gw.weight_of m) := by
  have hw := get_multiplier_entries_eq gw m
  have hjoin : gw.join g fl fw m =
      .ok ({ gw with participants := gw.participants ++ List.replicate (gw.weight_of m) m.id },
           (gw.participants ++ List.replicate (gw.weight_of m) m.id).dedup.length) := by
    unfold Giveaway.join
    cases hcr : gw.check_requirements g fl fw m with
    | ok u =>
      simp only [hcr]
      rw [if_neg hnew, hw]
    | error e =>
      have hb : gw.can_bypass g m = true := by
        simp only [Giveaway.elig_pass, hcr] at helig
        exact helig
      simp only [hcr, hb, if_true]
      rw [if_neg hnew, hw]
  refine ⟨hjoin, ?_⟩
  unfold Giveaway.join_copies
  rw [hjoin]
  have hc0 : gw.participants.count m.id = 0 := List.count_eq_zero.mpr hnew
  simp [List.count_append, hc0]

/-- C1 witness: the amended statement applied to the 2-and-3 configuration. -/
theorem join_appends_weight_copies_witness :
    gwC1.join gC1 fetch_zero fetch_zero memC1 =
      .ok ({ gwC1 with
             participants := gwC1.participants ++
               List.replicate (gwC1.weight_of memC1) memC1.id },
           (gwC1.participants ++
             List.replicate (gwC1.weight_of memC1) memC1.id).dedup.length) ∧
    Giveaway.join_copies gwC1 gC1 fetch_zero fetch_zero memC1 = some (gwC1.weight_of memC1) :=
  join_appends_weight_copies gwC1 gC1 fetch_zero fetch_zero memC1 (by decide) (by decide)

/-- C4 counterexample: a member missing required role 1 while holding
blacklisted role 2 gets an error listing only the missing required role;
the blacklist violation exists but is never mentioned, because the checks
raise at the first failing block instead of running them all. -/
theorem check_requirements_error_omits_later_failures :
    gwC4.check_requirements gC4 fetch_zero fetch_zero memC4
      = .error (.missingRequiredRoles [1]) ∧
    gwC4.held_blacklisted_roles gC4 memC4 = [2] ∧
    (match gwC4.check_requirements gC4 fetch_zero fetch_zero memC4 with
     | .error e => error_mentions_blacklist e
     | .ok _ => true) = false :=
  ⟨rfl, rfl, rfl⟩

/-- C4 (amended): the eligibility checks run in source order and the first
failing block raises immediately, listing every unmet item of that block
only: a non-empty missing-required-roles list raises with exactly that list
regardless of later failures, and the blacklist check raises only when the
required-roles check passed. -/
theorem check_requirements_first_failing_block (gw : Giveaway) (g : Guild)
    (fl fw : Nat → Nat) (m : Member) :
    (gw.missing_required_roles g m ≠ [] →
      gw.check_requirements g fl fw m
        = .error (.missingRequiredRoles (gw.missing_required_roles g m))) ∧
    (gw.missing_required_roles g m = [] → gw.held_blacklisted_roles g m ≠ [] →
      gw.check_requirements g fl fw m
        = .error (.blacklistedRolesHeld (gw.held_blacklisted_roles g m))) := by
  constructor
  · intro h
    unfold Giveaway.check_requirements
    rw [if_pos h]
  · intro h1 h2
    unfold Giveaway.check_requirements
    rw [if_neg (by simp [h1]), if_pos h2]

/-- C4 witness: the first block raising on the doubly failing member, and
the blacklist block raising when the required block passes. -/
theorem check_requirements_first_failing_block_witness :
    gwC4.check_requirements gC4 fetch_zero fetch_zero memC4
      = .error (.missingRequiredRoles (gwC4.missing_required_roles gC4 memC4)) ∧
    gwC4b.check_requirements gC4 fetch_zero fetch_zero memC4b
      = .error (.blacklistedRolesHeld (gwC4b.held_blacklisted_roles gC4 memC4b)) :=
  ⟨(check_requirements_first_failing_block gwC4 gC4 fetch_zero fetch_zero memC4).1 (by decide),
   (check_requirements_first_failing_block gwC4b gC4 fetch_zero fetch_zero memC4b).2
     (by decide) (by decide)⟩

/-- C5 counterexample: on a giveaway whose ended flag is already true, with
persisted winner 1 but participant pool now 2, calling end runs winner
selection again and overwrites the winners list with 2, so the re-entrant
call is not idempotent and does perform further selection. -/
theorem end_giveaway_on_ended_reselects :
    gwC5.ended = true ∧
    (gwC5.end_giveaway (some gEmpty) resolve_id fetch_zero fetch_zero rs_zero).winners = [2] ∧
    (gwC5.end_giveaway (some gEmpty) resolve_id fetch_zero fetch_zero rs_zero).winners
      ≠ gwC5.winners :=
  ⟨rfl, by decide, by decide⟩

/-- C5 (amended): end consults nothing about the ended flag: whenever the
guild resolves it unconditionally re-runs pick_winners over the current
participants, overwrites the winners list and persists it with ended set
true, even when ended was already true; only the missing-guild path skips
selection. -/
theorem end_giveaway_unconditional_selection (gw : Giveaway) (g : Guild)
    (resolve : Nat → Option Member) (fl fw : Nat → Nat) (rs : Nat → Nat) :
    gw.end_giveaway (some g) resolve fl fw rs =
      { gw with
        winners := (gw.pick_winners g resolve fl fw rs gw.winner_count).map Member.id,
        ended := true } := rfl

/-- C7 counterexample: a transient store-connectivity failure
(asyncpg.PostgresConnectionError) caught at the loop boundary restarts the
task without any logging or telemetry, contradicting the claim that every
caught loop-boundary error is logged and reported before restart. -/
theorem connectivity_error_restarts_silently :
    handle_loop_error .postgresConnectionError = [.restartTask] ∧
    LoopAction.logError ∉ handle_loop_error .postgresConnectionError ∧
    LoopAction.reportTelemetry ∉ handle_loop_error .postgresConnectionError := by
  decide

/-- C7 (amended): the connectivity classes (OSError, ConnectionClosed,
PostgresConnectionError) restart the loop silently; any other unexpected
exception restarts the loop first and is then logged and reported to
telemetry; task cancellation is re-raised. -/
theorem handle_loop_error_by_class :
    handle_loop_error .osError = [.restartTask] ∧
    handle_loop_error .connectionClosed = [.restartTask] ∧
    handle_loop_error .postgresConnectionError = [.restartTask] ∧
    (∀ name, handle_loop_error (.unexpected name)
      = [.restartTask, .logError, .reportTelemetry]) ∧
    handle_loop_error .cancelled = [.reraise] :=
  ⟨rfl, rfl, rfl, fun _ => rfl, rfl⟩

/-- C8 counterexample: with the dispatcher sleeping on a timer due at 100
seconds, creating a timer due at 10 seconds — earlier than the current one —
takes the short-timer path: the store is untouched, and the sleeping task is
not cancelled or restarted, contrary to the claim that any earlier-expiry
creation cancels the sleep and restarts the loop. -/
theorem short_timer_creation_skips_restart :
    t2C8.expires < t1C8.expires ∧
    sC8.current = some t1C8 ∧
    (create_timer sC8 0 t2C8).restarted = false ∧
    (create_timer sC8 0 t2C8).short_path = true ∧
    (create_timer sC8 0 t2C8).state.store = sC8.store ∧
    (create_timer sC8 0 t2C8).state.current = sC8.current := by
  decide

/-- C8 (amended): only a timer created with more than 60 seconds to expiry is
stored durably; when its expiry precedes that of the currently slept-on
timer the task is cancelled and the loop restarted with a full requery of
the store.  A timer due within 60 seconds is instead scheduled as an
in-memory sleep, bypassing the store and leaving the current sleep alone
(it still fires earlier simply because its delay is shorter). -/
theorem create_timer_reschedule (s : TimerState) (now : Int) (t c : Timer)
    (hc : s.current = some c) :
    (60 < t.expires - now → t.expires < c.expires →
      create_timer s now t =
        { state :=
            { s with
              store := s.store ++ [t]
              current := get_active_timer (s.store ++ [t]) now 40 },
          timer := t, short_path := false, restarted := true }) ∧
    (t.expires - now ≤ 60 →
      create_timer s now t =
        { state := { s with shortTimers := s.shortTimers ++ [t] },
          timer := t, short_path := true, restarted := false }) := by
  constructor
  · intro h1 h2
    unfold create_timer
    rw [if_neg (by omega)]
    simp [hc, h2, restart_dispatch]
  · intro h1
    unfold create_timer
    rw [if_pos h1]

/-- C8 witness: the durable branch restarting with a requery on a timer due
at 100 seconds against a current timer due at 1000, and the short branch
leaving the state alone for a timer due at 10 seconds. -/
theorem create_timer_reschedule_witness :
    (create_timer sC8w 0 t4C8 =
      { state :=
          { sC8w with
            store := sC8w.store ++ [t4C8]
            current := get_active_timer (sC8w.store ++ [t4C8]) 0 40 },
        timer := t4C8, short_path := false, restarted := true }) ∧
    (create_timer sC8 0 t2C8 =
      { state := { sC8 with shortTimers := sC8.shortTimers ++ [t2C8] },
        timer := t2C8, short_path := true, restarted := false }) :=
  ⟨(create_timer_reschedule sC8w 0 t4C8 t3C8 rfl).1 (by decide) (by decide),
   (create_timer_reschedule sC8 0 t2C8 t1C8 rfl).2 (by decide)⟩

/-- C9: a member failing the requirement check who holds a bypass role joins
successfully with the eligibility error suppressed, and the number of id
copies appended is get_multiplier_entries of the member — the same weight
function applied to eligible members, unaffected by the bypass path. -/
theorem join_bypass_suppresses_error (gw : Giveaway) (g : Guild) (fl fw : Nat → Nat)
    (m : Member) (err : GiveawayError)
    (hfail : gw.check_requirements g fl fw m = .error err)
    (hbypass : gw.can_bypass g m = true)
    (hnew : m.id ∉ gw.participants) :
    gw.join g fl fw m =
      .ok ({ gw with
             participants := gw.participants ++
               List.replicate (gw.get_multiplier_entries m) m.id },
           (gw.participants ++
             List.replicate (gw.get_multiplier_entries m) m.id).dedup.length) := by
  unfold Giveaway.join
  simp only [hfail, hbypass, if_true]
  rw [if_neg hnew]

/-- C9 witness: the §8 example — required role 1, bypass role 2, a member
holding only role 2 joins successfully. -/
theorem join_bypass_suppresses_error_witness :
    gwC9.join gC9 fetch_zero fetch_zero memC9 =
      .ok ({ gwC9 with
             participants := gwC9.participants ++
               List.replicate (gwC9.get_multiplier_entries memC9) memC9.id },
           (gwC9.participants ++
             List.replicate (gwC9.get_multiplier_entries memC9) memC9.id).dedup.length) :=
  join_bypass_suppresses_error gwC9 gC9 fetch_zero fetch_zero memC9
    (.missingRequiredRoles [1]) rfl (by decide) (by decide)

/-- C10: a configured role id that does not resolve in the guild is skipped
by both role checks: prepending it to the required or the blacklisted list
leaves check_requirements unchanged, and such an id never occurs in the
missing-required or held-blacklisted lists. -/
theorem unresolvable_role_id_skipped (gw : Giveaway) (g : Guild) (fl fw : Nat → Nat)
    (m : Member) (roleId : Nat) (hnone : g.get_role roleId = none) :
    Giveaway.check_requirements
        { gw with required_roles := roleId :: gw.required_roles } g fl fw m
      = gw.check_requirements g fl fw m ∧
    Giveaway.check_requirements
        { gw with blacklisted_roles := roleId :: gw.blacklisted_roles } g fl fw m
      = gw.check_requirements g fl fw m ∧
    roleId ∉ gw.missing_required_roles g m ∧
    roleId ∉ gw.held_blacklisted_roles g m := by
  refine ⟨?_, ?_, ?_, ?_⟩
  · simp [Giveaway.check_requirements, Giveaway.missing_required_roles,
      Giveaway.held_blacklisted_roles, List.filter_cons, hnone]
  · simp [Giveaway.check_requirements, Giveaway.missing_required_roles,
      Giveaway.held_blacklisted_roles, List.filter_cons, hnone]
  · simp [Giveaway.missing_required_roles, List.mem_filter, hnone]
  · simp [Giveaway.held_blacklisted_roles, List.mem_filter, hnone]

/-- C10 witness: role id 99 does not exist in the empty guild and imposes
nothing on a role-less member in either list. -/
theorem unresolvable_role_id_skipped_witness :
    Giveaway.check_requirements
        { base_giveaway with required_roles := 99 :: base_giveaway.required_roles }
        gEmpty fetch_zero fetch_zero memC10
      = base_giveaway.check_requirements gEmpty fetch_zero fetch_zero memC10 ∧
    Giveaway.check_requirements
        { base_giveaway with blacklisted_roles := 99 :: base_giveaway.blacklisted_roles }
        gEmpty fetch_zero fetch_zero memC10
      = base_giveaway.check_requirements gEmpty fetch_zero fetch_zero memC10 ∧
    99 ∉ base_giveaway.missing_required_roles gEmpty memC10 ∧
    99 ∉ base_giveaway.held_blacklisted_roles gEmpty memC10 :=
  unresolvable_role_id_skipped base_giveaway gEmpty fetch_zero fetch_zero memC10 99 rfl

/-- C6: with the dispatcher sleeping on a timer whose message id matches T,
manually firing T deletes every row with its key from the durable store and
dispatches its event, then cancels the sleep and restarts the loop, which
requeries the cleaned store; the next wake of the dispatcher therefore
cannot fire T again, so the manual fire followed by the normal wake delivers
the event of T exactly once. -/
theorem call_timer_manual_delivers_once (s : TimerState) (now : Int) (T c : Timer)
    (hcur : s.current = some c) (hmsg : c.message_id = T.message_id)
    (hnew : s.dispatched.count T = 0) :
    ((call_timer s now T true).store.all fun r => !(timer_key_eq r T)) = true ∧
    (call_timer s now T true).dispatched.count T = 1 ∧
    (call_timer s now T true).current
      = get_active_timer (delete_timer_rows s.store T) now 40 ∧
    (dispatcher_wake (call_timer s now T true) now).dispatched.count T = 1 := by
  have hst := call_timer_store s now T true
  have hdisp := call_timer_dispatched s now T true
  have hcount1 : (call_timer s now T true).dispatched.count T = 1 := by
    rw [hdisp]
    simp [List.count_append, hnew]
  have hcurr : (call_timer s now T true).current
      = get_active_timer (delete_timer_rows s.store T) now 40 := by
    unfold call_timer restart_dispatch
    simp [hcur, hmsg]
  refine ⟨?_, hcount1, hcurr, ?_⟩
  · rw [hst]
    exact delete_timer_rows_all s.store T
  · cases hc2 : (call_timer s now T true).current with
    | none =>
      unfold dispatcher_wake
      rw [hc2]
      exact hcount1
    | some d =>
      have hd : d ∈ delete_timer_rows s.store T :=
        get_active_timer_mem _ now 40 d (by rw [← hcurr, hc2])
      have hkey : (!(timer_key_eq d T)) = true := (List.mem_filter.mp hd).2
      have hdT : d ≠ T := by
        intro h
        rw [h, timer_key_eq_self] at hkey
        exact absurd hkey (by decide)
      unfold dispatcher_wake
      rw [hc2, call_timer_dispatched, hdisp]
      simp [List.count_append, hnew, List.count_cons, hdT]

/-- C6 witness: the scenario applied to a state sleeping on the stored timer
tC6 itself. -/
theorem call_timer_manual_delivers_once_witness :
    ((call_timer sC6 0 tC6 true).store.all fun r => !(timer_key_eq r tC6)) = true ∧
    (call_timer sC6 0 tC6 true).dispatched.count tC6 = 1 ∧
    (call_timer sC6 0 tC6 true).current
      = get_active_timer (delete_timer_rows sC6.store tC6) 0 40 ∧
    (dispatcher_wake (call_timer sC6 0 tC6 true) 0).dispatched.count tC6 = 1 :=
  call_timer_manual_delivers_once sC6 0 tC6 tC6 rfl rfl (by decide)

theorem draw_id_mem (rs : Nat → Nat) (k p : Nat) (ps : List Nat) :
    draw_id rs k p ps ∈ p :: ps :=
  List.get_mem _ _ _

theorem remove_drawn_length (pool : List Nat) (d : Nat) (hd : d ∈ pool) :
    (remove_drawn pool d).length = pool.length - 1 := by
  unfold remove_drawn
  exact List.length_erase_of_mem hd

theorem winner_mem_eq (winners : List Member) (m : Member) :
    winner_mem winners m = winner_has winners m.id := rfl

theorem winner_mem_false_not_mem (winners : List Member) (m : Member)
    (h : winner_mem winners m = false) : m.id ∉ winners.map Member.id := by
  intro hmem
  rcases List.mem_map.mp hmem with ⟨w, hw, hid⟩
  have htrue : winner_mem winners m = true := by
    unfold winner_mem
    exact List.any_eq_true.mpr ⟨w, hw, by simp [hid]⟩
  rw [h] at htrue
  cases htrue

theorem nodup_append_singleton (winners : List Member) (m : Member)
    (hw : (winners.map Member.id).Nodup) (hm : m.id ∉ winners.map Member.id) :
    (((winners ++ [m]).map Member.id)).Nodup := by
  rw [List.map_append]
  rw [List.nodup_append]
  refine ⟨hw, by simp, ?_⟩
  intro a ha hb
  simp only [List.map_cons, List.map_nil, List.mem_singleton] at hb
  subst hb
  exact hm ha

theorem pick_winners_aux_nodup (gw : Giveaway) (g : Guild) (resolve : Nat → Option Member)
    (fl fw rs : Nat → Nat) :
    ∀ (fuel k count : Nat) (pool : List Nat) (winners : List Member),
      (winners.map Member.id).Nodup →
      ((gw.pick_winners_aux g resolve fl fw rs fuel k count pool winners).map Member.id).Nodup := by
  intro fuel
  induction fuel with
  | zero =>
    intro k count pool winners hw
    simpa [Giveaway.pick_winners_aux] using hw
  | succ fuel ih =>
    intro k count pool winners hw
    cases count with
    | zero => simpa [Giveaway.pick_winners_aux] using hw
    | succ c =>
      cases pool with
      | nil => simpa [Giveaway.pick_winners_aux] using hw
      | cons p ps =>
        simp only [Giveaway.pick_winners_aux]
        cases hr : resolve (draw_id rs k p ps) with
        | none => exact ih _ _ _ _ hw
        | some member =>
          dsimp only
          by_cases hwm : winner_mem winners member = true
          · rw [if_pos hwm]
            exact ih _ _ _ _ hw
          · rw [if_neg hwm]
            by_cases he : gw.elig_pass g fl fw member = true
            · rw [if_pos he]
              exact ih _ _ _ _
                (nodup_append_singleton winners member hw
                  (winner_mem_false_not_mem winners member (by
                    cases hb : winner_mem winners member
                    · rfl
                    · exact absurd hb hwm)))
            · rw [if_neg he]
              exact ih _ _ _ _ hw

theorem available_skip (gw : Giveaway) (g : Guild) (resolve : Nat → Option Member)
    (fl fw : Nat → Nat) (pool : List Nat) (winners : List Member) (d : Nat)
    (hd : ¬(gw.draw_ok g resolve fl fw d = true ∧ winner_has winners d = false)) :
    gw.available g resolve fl fw (remove_drawn pool d) winners
      = gw.available g resolve fl fw pool winners := by
  unfold Giveaway.available remove_drawn
  ext x
  simp only [Finset.mem_filter, List.mem_toFinset]
  constructor
  · rintro ⟨hx, hp⟩
    exact ⟨List.mem_of_mem_erase hx, hp⟩
  · rintro ⟨hx, hp⟩
    refine ⟨?_, hp⟩
    rcases eq_or_ne x d with rfl | hne
    · exact absurd hp hd
    · exact (List.mem_erase_of_ne hne).mpr hx

theorem available_take (gw : Giveaway) (g : Guild) (resolve : Nat → Option Member)
    (fl fw : Nat → Nat) (pool : List Nat) (winners : List Member) (d : Nat) (m : Member)
    (hm : m.id = d) :
    gw.available g resolve fl fw (remove_drawn pool d) (winners ++ [m])
      = (gw.available g resolve fl fw pool winners).erase d := by
  unfold Giveaway.available remove_drawn
  ext x
  simp only [Finset.mem_filter, Finset.mem_erase, List.mem_toFinset]
  constructor
  · rintro ⟨hx, hok, hwin⟩
    have hxmem := List.mem_of_mem_erase hx
    have hxd : x ≠ d := by
      intro h
      subst h
      unfold winner_has at hwin
      rw [List.any_append] at hwin
      simp [hm] at hwin
    have hwin2 : winner_has winners x = false := by
      unfold winner_has at hwin ⊢
      rw [List.any_append] at hwin
      exact (Bool.or_eq_false_iff.mp hwin).1
    exact ⟨hxd, hxmem, hok, hwin2⟩
  · rintro ⟨hxd, hx, hok, hwin⟩
    refine ⟨(List.mem_erase_of_ne hxd).mpr hx, hok, ?_⟩
    unfold winner_has at hwin ⊢
    rw [List.any_append]
    rw [hwin]
    simp [hm]
    exact fun h => hxd h.symm

theorem pick_winners_aux_length (gw : Giveaway) (g : Guild) (resolve : Nat → Option Member)
    (fl fw rs : Nat → Nat)
    (hres : ∀ i mem, resolve i = some mem → mem.id = i) :
    ∀ (fuel k count : Nat) (pool : List Nat) (winners : List Member),
      pool.length ≤ fuel →
      (gw.pick_winners_aux g resolve fl fw rs fuel k count pool winners).length
        = winners.length + min count (gw.available g resolve fl fw pool winners).card := by
  intro fuel
  induction fuel with
  | zero =>
    intro k count pool winners hlen
    have hp : pool = [] := List.eq_nil_of_length_eq_zero (Nat.le_zero.mp hlen)
    subst hp
    simp [Giveaway.pick_winners_aux, Giveaway.available]
  | succ fuel ih =>
    intro k count pool winners hlen
    cases count with
    | zero => simp [Giveaway.pick_winners_aux]
    | succ c =>
      cases pool with
      | nil => simp [Giveaway.pick_winners_aux, Giveaway.available]
      | cons p ps =>
        have hdmem : draw_id rs k p ps ∈ p :: ps := draw_id_mem rs k p ps
        have hlen2 : (remove_drawn (p :: ps) (draw_id rs k p ps)).length ≤ fuel := by
          rw [remove_drawn_length _ _ hdmem]
          simp only [List.length_cons] at hlen ⊢
          omega
        simp only [Giveaway.pick_winners_aux]
        cases hr : resolve (draw_id rs k p ps) with
        | none =>
          rw [ih _ _ _ _ hlen2]
          rw [available_skip gw g resolve fl fw (p :: ps) winners _ (by
            rintro ⟨hok, -⟩
            unfold Giveaway.draw_ok at hok
            rw [hr] at hok
            cases hok)]
        | some member =>
          dsimp only
          have hdm : member.id = draw_id rs k p ps := hres _ _ hr
          by_cases hwm : winner_mem winners member = true
          · rw [if_pos hwm]
            rw [ih _ _ _ _ hlen2]
            rw [available_skip gw g resolve fl fw (p :: ps) winners _ (by
              rintro ⟨-, hwin⟩
              rw [← hdm, ← winner_mem_eq] at hwin
              rw [hwm] at hwin
              cases hwin)]
          · rw [if_neg hwm]
            by_cases he : gw.elig_pass g fl fw member = true
            · rw [if_pos he]
              have hok : gw.draw_ok g resolve fl fw (draw_id rs k p ps) = true := by
                unfold Giveaway.draw_ok
                rw [hr]
                exact he
              have hwinf : winner_has winners (draw_id rs k p ps) = false := by
                rw [← hdm, ← winner_mem_eq]
                cases hb : winner_mem winners member
                · rfl
                · exact absurd hb hwm
              have hdav : draw_id rs k p ps ∈ gw.available g resolve fl fw (p :: ps) winners := by
                unfold Giveaway.available
                rw [Finset.mem_filter]
                exact ⟨List.mem_toFinset.mpr hdmem, hok, hwinf⟩
              rw [ih _ _ _ _ hlen2]
              rw [available_take gw g resolve fl fw (p :: ps) winners _ member hdm]
              rw [Finset.card_erase_of_mem hdav]
              have hpos : 0 < (gw.available g resolve fl fw (p :: ps) winners).card :=
                Finset.card_pos.mpr ⟨_, hdav⟩
              simp only [List.length_append, List.length_cons, List.length_nil]
              omega
            · rw [if_neg he]
              rw [ih _ _ _ _ hlen2]
              rw [available_skip gw g resolve fl fw (p :: ps) winners _ (by
                rintro ⟨hok, -⟩
                unfold Giveaway.draw_ok at hok
                rw [hr] at hok
                dsimp only at hok
                exact he hok)]

/-- C2 counterexample: drawing id 7 from the pool [7, 7] leaves [7] — the
remaining copy of the drawn id stays in the pool, because
participants.remove removes only the first occurrence; the claim that every
remaining copy is removed before the next draw is false. -/
theorem remove_drawn_leaves_other_copies :
    remove_drawn [7, 7] 7 = [7] ∧ (7 : Nat) ∈ remove_drawn [7, 7] 7 := by
  decide

/-- C2 (amended): a draw removes exactly one copy of the drawn id from the
pool (the count drops by exactly one), so the same id can be drawn again in
the same run; the membership check against the winners list nevertheless
guarantees that no member is kept as a winner twice — the returned winner
ids are pairwise distinct for every pool, count, resolver and random
stream. -/
theorem remove_drawn_one_copy_winners_distinct :
    (∀ (pool : List Nat) (memberId : Nat),
      (remove_drawn pool memberId).count memberId = pool.count memberId - 1) ∧
    (∀ (gw : Giveaway) (g : Guild) (resolve : Nat → Option Member) (fl fw rs : Nat → Nat)
      (count : Nat),
      ((gw.pick_winners g resolve fl fw rs count).map Member.id).Nodup) := by
  constructor
  · intro pool memberId
    unfold remove_drawn
    exact List.count_erase_self _ _
  · intro gw g resolve fl fw rs count
    unfold Giveaway.pick_winners
    exact pick_winners_aux_nodup gw g resolve fl fw rs _ _ _ _ _ (by simp)

/-- C3: pick_winners returns pairwise distinct winners; its length is the
minimum of count and the number of available distinct ids of the pool (ids
that resolve to a member passing the gate directly or by bypass), hence at
most count; with at least count available distinct ids it returns exactly
count winners; a pool exhausted earlier yields the shorter list, and the
function is total so no error is raised for the shortfall. -/
theorem pick_winners_distinct_min_count (gw : Giveaway) (g : Guild)
    (resolve : Nat → Option Member) (fl fw rs : Nat → Nat) (count : Nat)
    (hres : ∀ i mem, resolve i = some mem → mem.id = i) :
    ((gw.pick_winners g resolve fl fw rs count).map Member.id).Nodup ∧
    (gw.pick_winners g resolve fl fw rs count).length
      = min count (gw.available g resolve fl fw gw.participants []).card ∧
    (gw.pick_winners g resolve fl fw rs count).length ≤ count ∧
    (count ≤ (gw.available g resolve fl fw gw.participants []).card →
      (gw.pick_winners g resolve fl fw rs count).length = count) := by
  have hn := pick_winners_aux_nodup gw g resolve fl fw rs
    gw.participants.length 0 count gw.participants [] (by simp)
  have hl := pick_winners_aux_length gw g resolve fl fw rs hres
    gw.participants.length 0 count gw.participants [] (le_refl _)
  simp only [List.length_nil, Nat.zero_add] at hl
  have hmin : (gw.pick_winners g resolve fl fw rs count).length
      = min count (gw.available g resolve fl fw gw.participants []).card := hl
  exact ⟨hn, hmin, by omega, fun hge => by omega⟩

/-- C3 witness: three winners requested over the pool of five distinct ids
1..5, all resolvable and eligible: three pairwise distinct winners are
returned. -/
theorem pick_winners_distinct_min_count_witness :
    ((gwC3.pick_winners gEmpty resolve_id fetch_zero fetch_zero rs_zero 3).map Member.id).Nodup ∧
    (gwC3.pick_winners gEmpty resolve_id fetch_zero fetch_zero rs_zero 3).length = 3 :=
  ⟨(pick_winners_distinct_min_count gwC3 gEmpty resolve_id fetch_zero fetch_zero rs_zero 3
      (by intro i mem h; cases h; rfl)).1,
   (pick_winners_distinct_min_count gwC3 gEmpty resolve_id fetch_zero fetch_zero rs_zero 3
      (by intro i mem h; cases h; rfl)).2.2.2 (by decide)⟩

end Giftify
